import Mathlib

/-!
Verification development for the DS4CC daemon (Rust sources under `src/`).

The Rust code is shallowly embedded: byte buffers become `List Nat` whose
elements are < 256, `u32` arithmetic becomes `Nat` with explicit bounds,
`Instant`/`Duration` become `Nat` milliseconds, fallible parsers return
`Except`, and the file-system view of the agent-state directory becomes an
explicit list of file entries.  Definitions carry the source names where Lean
allows it.
-/

set_option maxRecDepth 100000
set_option maxHeartbeats 4000000

namespace DS4CC

/-! Definitions: crc32.rs -/

/-- One inner iteration of the CRC32_TABLE construction (`while j < 8` body). -/
def crcTableStep (c : Nat) : Nat :=
  if c % 2 = 1 then (c >>> 1) ^^^ 0xEDB88320 else c >>> 1

/-- Entry `i` of CRC32_TABLE: eight iterations of `crcTableStep` starting from `i`. -/
def crc32Table (i : Nat) : Nat :=
  crcTableStep (crcTableStep (crcTableStep (crcTableStep
    (crcTableStep (crcTableStep (crcTableStep (crcTableStep i)))))))

def SEED_INPUT : Nat := 0xA1

def SEED_OUTPUT : Nat := 0xA2

/-- One byte of the CRC loop: `crc = (crc >> 8) ^ CRC32_TABLE[((crc as u8) ^ b) as usize]`. -/
def crcStep (crc b : Nat) : Nat :=
  (crc >>> 8) ^^^ crc32Table ((crc % 256) ^^^ b)

/-- Rust `calc(seed, data)`: CRC-32 over `data` with a seed byte prepended
(`calc` is a Lean keyword, hence the name `crcCalc`). -/
def crcCalc (seed : Nat) (data : List Nat) : Nat :=
  (data.foldl crcStep (crcStep 0xFFFFFFFF seed)) ^^^ 0xFFFFFFFF

/-- Little-endian byte decomposition of a `u32` (Rust `u32::to_le_bytes`). -/
def leBytes (x : Nat) : List Nat :=
  [x % 256, (x >>> 8) % 256, (x >>> 16) % 256, (x >>> 24) % 256]

/-- Rust `u32::from_le_bytes`. -/
def fromLeBytes (b0 b1 b2 b3 : Nat) : Nat :=
  b0 + 256 * b1 + 65536 * b2 + 16777216 * b3

/-- Rust `validate(seed, report)`: the last 4 bytes of `report` must equal the
little-endian CRC-32 of the preceding bytes. -/
def validate (seed : Nat) (report : List Nat) : Bool :=
  if report.length < 4 then false
  else
    let data := report.take (report.length - 4)
    let crcBytes := report.drop (report.length - 4)
    fromLeBytes (crcBytes.getD 0 0) (crcBytes.getD 1 0) (crcBytes.getD 2 0)
        (crcBytes.getD 3 0) == crcCalc seed data

/-- Rust `stamp(seed, report, crc_offset)`: write the little-endian CRC-32 of
`report[0..crc_offset]` into `report[crc_offset..crc_offset+4]`. -/
def stamp (seed : Nat) (report : List Nat) (crcOffset : Nat) : List Nat :=
  report.take crcOffset ++ leBytes (crcCalc seed (report.take crcOffset))
    ++ report.drop (crcOffset + 4)

/-! Definitions: controller.rs -/

inductive ControllerType
  | DualSense
  | DualSenseEdge
  | Ds4V1
  | Ds4V2
deriving DecidableEq

inductive ConnectionType
  | Usb
  | Bluetooth
deriving DecidableEq

/-! Definitions: input.rs -/

structure TouchPoint where
  active : Bool
  x : Nat
  y : Nat
deriving DecidableEq

/-- Rust `TouchPoint::default()`: inactive contact at the origin. -/
def TouchPoint.default : TouchPoint := ⟨false, 0, 0⟩

inductive DPad
  | Neutral
  | Up
  | UpRight
  | Right
  | DownRight
  | Down
  | DownLeft
  | Left
  | UpLeft
deriving DecidableEq

structure ButtonState where
  cross : Bool
  circle : Bool
  square : Bool
  triangle : Bool
  l1 : Bool
  r1 : Bool
  l2 : Bool
  r2 : Bool
  share : Bool
  options : Bool
  l3 : Bool
  r3 : Bool
  ps : Bool
  touchpad : Bool
  mute : Bool
  dpad : DPad
deriving DecidableEq

/-- Rust `ButtonState::default()`: everything released, D-pad neutral. -/
def ButtonState.default : ButtonState :=
  ⟨false, false, false, false, false, false, false, false, false, false,
   false, false, false, false, false, DPad.Neutral⟩

structure UnifiedInput where
  left_stick : Nat × Nat
  right_stick : Nat × Nat
  l2_analog : Nat
  r2_analog : Nat
  buttons : ButtonState
  touchpad : TouchPoint × TouchPoint
deriving DecidableEq

/-- Hand-written Rust `Default for UnifiedInput`: sticks centered at 128. -/
def UnifiedInput.default : UnifiedInput :=
  ⟨(128, 128), (128, 128), 0, 0, ButtonState.default,
   (TouchPoint.default, TouchPoint.default)⟩

inductive ParseError
  | TooShort (expected got : Nat)
deriving DecidableEq

/-- Rust `decode_hat`: 4-bit hat value to D-pad direction (8..15 = neutral). -/
def decode_hat (hat : Nat) : DPad :=
  match hat % 16 with
  | 0 => DPad.Up
  | 1 => DPad.UpRight
  | 2 => DPad.Right
  | 3 => DPad.DownRight
  | 4 => DPad.Down
  | 5 => DPad.DownLeft
  | 6 => DPad.Left
  | 7 => DPad.UpLeft
  | _ => DPad.Neutral

/-- Rust `parse_buttons`: the standard 3-byte button block. -/
def parse_buttons (b0 b1 b2 : Nat) : ButtonState where
  dpad := decode_hat (b0 % 16)
  square := b0 &&& 0x10 != 0
  cross := b0 &&& 0x20 != 0
  circle := b0 &&& 0x40 != 0
  triangle := b0 &&& 0x80 != 0
  l1 := b1 &&& 0x01 != 0
  r1 := b1 &&& 0x02 != 0
  l2 := b1 &&& 0x04 != 0
  r2 := b1 &&& 0x08 != 0
  share := b1 &&& 0x10 != 0
  options := b1 &&& 0x20 != 0
  l3 := b1 &&& 0x40 != 0
  r3 := b1 &&& 0x80 != 0
  ps := b2 &&& 0x01 != 0
  touchpad := b2 &&& 0x02 != 0
  mute := b2 &&& 0x04 != 0

/-- One 4-byte touch contact decode (the `decode` closure in `parse_touch_points`). -/
def touch_decode (data : List Nat) (base : Nat) : TouchPoint where
  active := data.getD base 0 &&& 0x80 == 0
  x := data.getD (base + 1) 0 ||| ((data.getD (base + 2) 0 &&& 0x0F) <<< 8)
  y := (data.getD (base + 2) 0 >>> 4) ||| (data.getD (base + 3) 0 <<< 4)

/-- Rust `parse_touch_points`: silently defaults when the buffer is shorter
than `off + 40`. -/
def parse_touch_points (data : List Nat) (off : Nat) : TouchPoint × TouchPoint :=
  if data.length < off + 40 then (TouchPoint.default, TouchPoint.default)
  else (touch_decode data (off + 32), touch_decode data (off + 36))

/-- Report-ID detection of `parse_dualsense_usb` (and `parse_ds4_usb`):
offset 1 when hidapi left the ID byte in place. -/
def ds_usb_off (data : List Nat) : Nat :=
  if data.length == 64 && data.getD 0 0 == 0x01 then 1 else 0

/-- Rust `parse_dualsense_usb`. -/
def parse_dualsense_usb (data : List Nat) : Except ParseError UnifiedInput :=
  let off := ds_usb_off data
  let minLen := off + 10
  if data.length < minLen then .error (.TooShort minLen data.length)
  else .ok
    { left_stick := (data.getD off 0, data.getD (off + 1) 0)
      right_stick := (data.getD (off + 2) 0, data.getD (off + 3) 0)
      l2_analog := data.getD (off + 4) 0
      r2_analog := data.getD (off + 5) 0
      buttons := parse_buttons (data.getD (off + 7) 0) (data.getD (off + 8) 0)
        (data.getD (off + 9) 0)
      touchpad := parse_touch_points data off }

/-- Report-ID detection of `parse_dualsense_bt`. -/
def ds_bt_off (data : List Nat) : Nat :=
  if 2 ≤ data.length && data.getD 0 0 == 0x31 then 2 else 1

/-- Rust `parse_dualsense_bt` (extended mode, report ID 0x31). -/
def parse_dualsense_bt (data : List Nat) : Except ParseError UnifiedInput :=
  let off := ds_bt_off data
  let minLen := off + 10
  if data.length < minLen then .error (.TooShort minLen data.length)
  else .ok
    { left_stick := (data.getD off 0, data.getD (off + 1) 0)
      right_stick := (data.getD (off + 2) 0, data.getD (off + 3) 0)
      l2_analog := data.getD (off + 4) 0
      r2_analog := data.getD (off + 5) 0
      buttons := parse_buttons (data.getD (off + 7) 0) (data.getD (off + 8) 0)
        (data.getD (off + 9) 0)
      touchpad := parse_touch_points data off }

/-- Rust `parse_ds4_usb`. -/
def parse_ds4_usb (data : List Nat) : Except ParseError UnifiedInput :=
  let off := ds_usb_off data
  let minLen := off + 9
  if data.length < minLen then .error (.TooShort minLen data.length)
  else .ok
    { left_stick := (data.getD off 0, data.getD (off + 1) 0)
      right_stick := (data.getD (off + 2) 0, data.getD (off + 3) 0)
      buttons := parse_buttons (data.getD (off + 4) 0) (data.getD (off + 5) 0)
        (data.getD (off + 6) 0)
      l2_analog := data.getD (off + 7) 0
      r2_analog := data.getD (off + 8) 0
      touchpad := (TouchPoint.default, TouchPoint.default) }

/-- Report-ID detection of `parse_ds4_bt`. -/
def ds4_bt_off (data : List Nat) : Nat :=
  if 3 ≤ data.length && data.getD 0 0 == 0x11 then 3 else 2

/-- Rust `parse_ds4_bt` (extended mode, report ID 0x11). -/
def parse_ds4_bt (data : List Nat) : Except ParseError UnifiedInput :=
  let off := ds4_bt_off data
  let minLen := off + 9
  if data.length < minLen then .error (.TooShort minLen data.length)
  else .ok
    { left_stick := (data.getD off 0, data.getD (off + 1) 0)
      right_stick := (data.getD (off + 2) 0, data.getD (off + 3) 0)
      buttons := parse_buttons (data.getD (off + 4) 0) (data.getD (off + 5) 0)
        (data.getD (off + 6) 0)
      l2_analog := data.getD (off + 7) 0
      r2_analog := data.getD (off + 8) 0
      touchpad := (TouchPoint.default, TouchPoint.default) }

/-- Rust `parse`: the top-level dispatcher on (model, connection). -/
def parse (ct : ControllerType) (conn : ConnectionType) (data : List Nat) :
    Except ParseError UnifiedInput :=
  match ct, conn with
  | .DualSense, .Usb | .DualSenseEdge, .Usb => parse_dualsense_usb data
  | .DualSense, .Bluetooth | .DualSenseEdge, .Bluetooth => parse_dualsense_bt data
  | .Ds4V1, .Usb | .Ds4V2, .Usb => parse_ds4_usb data
  | .Ds4V1, .Bluetooth | .Ds4V2, .Bluetooth => parse_ds4_bt data

/-- Test-input constructor: a report with the model/transport-correct preamble
whose payload encodes the released controller state (stick bytes 128, hat
nibble 8, touch contact bytes 0x80 = inactive, all other payload bytes 0). -/
def neutralReport (ct : ControllerType) (conn : ConnectionType) : List Nat :=
  match ct, conn with
  | .DualSense, .Usb | .DualSenseEdge, .Usb =>
    ((((((((List.replicate 64 0).set 0 0x01).set 1 128).set 2 128).set 3 128).set
      4 128).set 8 8).set 33 0x80).set 37 0x80
  | .DualSense, .Bluetooth | .DualSenseEdge, .Bluetooth =>
    ((((((((List.replicate 78 0).set 0 0x31).set 2 128).set 3 128).set 4 128).set
      5 128).set 9 8).set 34 0x80).set 38 0x80
  | .Ds4V1, .Usb | .Ds4V2, .Usb =>
    ((((((List.replicate 64 0).set 0 0x01).set 1 128).set 2 128).set 3 128).set
      4 128).set 5 8
  | .Ds4V1, .Bluetooth | .Ds4V2, .Bluetooth =>
    ((((((List.replicate 78 0).set 0 0x11).set 3 128).set 4 128).set 5 128).set
      6 128).set 7 8

/-! Definitions: output.rs -/

structure OutputState where
  lightbar_r : Nat
  lightbar_g : Nat
  lightbar_b : Nat
  rumble_left : Nat
  rumble_right : Nat
  player_leds : Nat
deriving DecidableEq

/-- Rust `build_dualsense_usb`: 48-byte report, ID 0x02. -/
def build_dualsense_usb (state : OutputState) : List Nat :=
  (((((((((((List.replicate 48 0).set 0 0x02).set 1 0x0F).set 2 0x55).set
    3 state.rumble_right).set 4 state.rumble_left).set 39 0x02).set 42 0x02).set
    43 0x00).set 44 state.player_leds).set 45 state.lightbar_r).set
    46 state.lightbar_g |>.set 47 state.lightbar_b

/-- The `buf` of Rust `build_dualsense_bt` before CRC stamping. -/
def dualsense_bt_body (state : OutputState) : List Nat :=
  (((((((((((List.replicate 78 0).set 0 0x31).set 1 0x02).set 2 0x0F).set
    3 0x55).set 4 state.rumble_right).set 5 state.rumble_left).set 40 0x02).set
    43 0x02).set 44 0x00).set 45 state.player_leds).set 46 state.lightbar_r
    |>.set 47 state.lightbar_g |>.set 48 state.lightbar_b

/-- Rust `build_dualsense_bt`: 78-byte report, ID 0x31, fixed tag 0x02,
CRC-stamped in the last four bytes (the `_seq` argument is unused). -/
def build_dualsense_bt (state : OutputState) : List Nat :=
  stamp SEED_OUTPUT (dualsense_bt_body state) ((dualsense_bt_body state).length - 4)

/-- Rust `build_ds4_usb`: 32-byte report, ID 0x05. -/
def build_ds4_usb (state : OutputState) : List Nat :=
  ((((((List.replicate 32 0).set 0 0x05).set 1 0x07).set 4 state.rumble_right).set
    5 state.rumble_left).set 6 state.lightbar_r).set 7 state.lightbar_g
    |>.set 8 state.lightbar_b

/-- The `buf` of Rust `build_ds4_bt` before CRC stamping. -/
def ds4_bt_body (state : OutputState) : List Nat :=
  ((((((((List.replicate 79 0).set 0 0x11).set 1 0x80).set 3 0xF7).set
    6 state.rumble_right).set 7 state.rumble_left).set 8 state.lightbar_r).set
    9 state.lightbar_g).set 10 state.lightbar_b

/-- Rust `build_ds4_bt`: 79-byte report, ID 0x11, CRC-stamped in the last
four bytes. -/
def build_ds4_bt (state : OutputState) : List Nat :=
  stamp SEED_OUTPUT (ds4_bt_body state) ((ds4_bt_body state).length - 4)

/-- Rust `build_report`: dispatcher on (model, connection); the Bluetooth
sequence argumet is unused by both BT builders. -/
def build_report (ct : ControllerType) (conn : ConnectionType) (state : OutputState) :
    List Nat :=
  match ct, conn with
  | .DualSense, .Usb | .DualSenseEdge, .Usb => build_dualsense_usb state
  | .DualSense, .Bluetooth | .DualSenseEdge, .Bluetooth => build_dualsense_bt state
  | .Ds4V1, .Usb | .Ds4V2, .Usb => build_ds4_usb state
  | .Ds4V1, .Bluetooth | .Ds4V2, .Bluetooth => build_ds4_bt state

/-! Definitions: state.rs -/

inductive AgentState
  | Idle
  | Working
  | Done
  | Error
deriving DecidableEq

/-- Rust `AgentState::priority`: higher wins in aggregation. -/
def AgentState.priority : AgentState → Nat
  | .Idle => 0
  | .Done => 1
  | .Error => 2
  | .Working => 3

/-- Rust `AgentState::parse`: trim whitespace, lowercase, match the token. -/
def AgentState.parse (s : String) : Option AgentState :=
  match s.trim.toLower with
  | "idle" => some AgentState.Idle
  | "working" => some AgentState.Working
  | "done" => some AgentState.Done
  | "error" => some AgentState.Error
  | _ => none

/-- The priority collapse performed by the scan loop in `scan_agent_states`:
`best` starts at Idle and each state with strictly higher priority replaces it. -/
def aggregate (l : List AgentState) : AgentState :=
  l.foldl (fun best state =>
    if best.priority < state.priority then state else best) AgentState.Idle

/-- A file in the state directory, as the scan sees it: name, contents
(`none` models an unreadable file), and seconds since last modification. -/
structure FileEntry where
  name : String
  contents : Option String
  ageSecs : Nat

/-- Replacement insert on an association list (HashMap::insert). -/
def upsertA (id : String) (v : AgentState) :
    List (String × AgentState) → List (String × AgentState)
  | [] => [(id, v)]
  | (k, w) :: t => if k = id then (id, v) :: t else (k, w) :: upsertA id v t

/-- Rust `scan_agent_states`: `none` for the directory models a failed
`read_dir` (missing or inaccessible directory); a `FileEntry` with
`contents := none` models an unreadable file.  Stale-Working and Idle files
are deleted on disk by the Rust code; here they are simply omitted from the
result, which is all later processing observes. -/
def scan_agent_states (dir : Option (List FileEntry)) (staleTimeoutSecs : Nat) :
    AgentState × List (String × AgentState) :=
  match dir with
  | none => (AgentState.Idle, [])
  | some entries =>
    entries.foldl (fun acc e =>
      if !(e.name.startsWith ("ds4cc_agent_")) || e.name.endsWith ("_start") then acc
      else
        let agentId := e.name.drop ("ds4cc_agent_").length
        match e.contents with
        | none => acc
        | some c =>
          match AgentState.parse c with
          | none => acc
          | some state =>
            if state = AgentState.Working ∧ staleTimeoutSecs < e.ageSecs then acc
            else if state = AgentState.Idle then acc
            else
              ((if acc.1.priority < state.priority then state else acc.1),
               upsertA agentId state acc.2)) (AgentState.Idle, [])

/-! Definitions: lightbar.rs.  The f64 arithmetic is idealised over the real
numbers; the saturating `as u8` cast becomes the natural-number floor, which
agrees with the source on its actual input space because the config
components are bytes and the brightness never exceeds 1. -/

structure Rgb where
  r : Nat
  g : Nat
  b : Nat

structure LightbarConfig where
  idle : Rgb
  working : Rgb
  done : Rgb
  error : Rgb
  pulse_period_ms : Nat

/-- The Working-state brightness of `compute_color`:
`0.65 + 0.35 * sin((elapsed_ms / period) * TAU)`. -/
noncomputable def working_brightness (pulsePeriodMs elapsedMs : Nat) : ℝ :=
  0.65 + 0.35 * Real.sin ((elapsedMs : ℝ) / (pulsePeriodMs : ℝ) * (2 * Real.pi))

/-- Rust `compute_color`: agent state + elapsed time → lightbar RGB. -/
noncomputable def compute_color (config : LightbarConfig) (state : AgentState)
    (elapsedMs : Nat) : Nat × Nat × Nat :=
  match state with
  | .Idle => (config.idle.r, config.idle.g, config.idle.b)
  | .Done => (config.done.r, config.done.g, config.done.b)
  | .Error => (config.error.r, config.error.g, config.error.b)
  | .Working =>
    (⌊(config.working.r : ℝ) * working_brightness config.pulse_period_ms elapsedMs⌋₊,
     ⌊(config.working.g : ℝ) * working_brightness config.pulse_period_ms elapsedMs⌋₊,
     ⌊(config.working.b : ℝ) * working_brightness config.pulse_period_ms elapsedMs⌋₊)

/-! Definitions: the per-agent tracker of `poll_state_file` (state.rs).

One loop iteration after the `scan_agent_states` call is modelled as a pure
function `tick` on a `TrackerState`.  Agent ids are opaque; they are modelled
as `Nat`.  All times are `Nat` milliseconds (`Instant` differences become
truncated subtraction, which is faithful because `Instant` is monotone). -/

/-- One tracker record: `agent_id → (last known state, timestamp of that state)`. -/
structure ARec where
  state : AgentState
  since : Nat
deriving DecidableEq

/-- The mutable state of the `poll_state_file` loop that the per-agent logic
touches: `agent_tracker`, `reminder_fired`, `reminder_cooldown`. -/
structure TrackerState where
  records : List (Nat × ARec)
  fired : List Nat
  cooldown : Option Nat
deriving DecidableEq

/-- The configuration the per-agent logic reads (all in milliseconds). -/
structure PollConfig where
  idleReminderMs : Nat
  doneThresholdMs : Nat
  subagentFilterMs : Nat
deriving DecidableEq

/-- Replacement insert on the tracker association list (HashMap::insert). -/
def upsertRec (id : Nat) (v : ARec) : List (Nat × ARec) → List (Nat × ARec)
  | [] => [(id, v)]
  | (k, w) :: t => if k = id then (id, v) :: t else (k, w) :: upsertRec id v t

/-- The body of step 1 of the loop for one active agent `a`: update its
tracker record, count a Working→Done transition that passes `done_threshold`
(a rumble signal), and clear the `reminder_fired` mark on any state change. -/
def step1Update (cfg : PollConfig) (now : Nat)
    (acc : List (Nat × ARec) × List Nat × Nat) (a : Nat × AgentState) :
    List (Nat × ARec) × List Nat × Nat :=
  match List.lookup a.1 acc.1 with
  | some r =>
    if r.state = a.2 then acc
    else
      let rumbles := if r.state = AgentState.Working ∧ a.2 = AgentState.Done ∧
          cfg.doneThresholdMs ≤ now - r.since then acc.2.2 + 1 else acc.2.2
      (upsertRec a.1 ⟨a.2, now⟩ acc.1, (acc.2.1).erase a.1, rumbles)
  | none => (upsertRec a.1 ⟨a.2, now⟩ acc.1, acc.2.1, acc.2.2)

/-- Step 1 of the loop: update the tracker for agents with active state files. -/
def tickStep1 (cfg : PollConfig) (now : Nat) (cur : List (Nat × AgentState))
    (recs : List (Nat × ARec)) (fired : List Nat) :
    List (Nat × ARec) × List Nat × Nat :=
  cur.foldl (step1Update cfg now) (recs, fired, 0)

/-- Step 2 of the loop: agents that disappeared from the active map are
transitioned to Idle in memory; a Working stretch shorter than
`subagent_filter` marks the reminder as already fired (the subagent filter),
otherwise the mark is cleared. -/
def tickStep2 (subagentFilterMs now : Nat) (cur : List (Nat × AgentState)) :
    List (Nat × ARec) → List Nat → List (Nat × ARec) × List Nat
  | [], fired => ([], fired)
  | (id, r) :: t, fired =>
    if (List.lookup id cur).isSome then
      let p := tickStep2 subagentFilterMs now cur t fired
      ((id, r) :: p.1, p.2)
    else if r.state = AgentState.Idle then
      let p := tickStep2 subagentFilterMs now cur t fired
      ((id, r) :: p.1, p.2)
    else
      let fired' := if r.state = AgentState.Working ∧ now - r.since < subagentFilterMs
        then List.insert id fired else fired.erase id
      let p := tickStep2 subagentFilterMs now cur t fired'
      ((id, ⟨AgentState.Idle, now⟩) :: p.1, p.2)

/-- Step 3 of the loop: the list of tracked agents whose idle reminder fires
this tick (empty while the 5-second cooldown is active). -/
def tickStep3 (idleReminderMs now : Nat) (inCooldown : Bool)
    (recs : List (Nat × ARec)) (fired : List Nat) : List Nat :=
  if inCooldown then [] else
    (recs.filter (fun p => decide (0 < idleReminderMs ∧
      p.2.state = AgentState.Idle ∧ p.1 ∉ fired ∧
      idleReminderMs ≤ now - p.2.since))).map Prod.fst

/-- Step 4 of the loop: prune idle agents whose reminder has fired, then
restrict `reminder_fired` to agents still tracked. -/
def tickStep4 (idleReminderMs : Nat) (cur : List (Nat × AgentState))
    (recs : List (Nat × ARec)) (fired : List Nat) :
    List (Nat × ARec) × List Nat :=
  let recs' := recs.filter (fun p => (List.lookup p.1 cur).isSome ||
    decide (0 < idleReminderMs ∧ p.2.state = AgentState.Idle ∧ p.1 ∉ fired))
  (recs', fired.filter (fun i => (List.lookup i recs').isSome))

/-- Cooldown resolution at the top of each loop iteration: inside the
5-second window after the last idle-reminder send? -/
def inCooldownAt (cooldown : Option Nat) (now : Nat) : Bool :=
  match cooldown with
  | some cd => decide (now - cd < 5000)
  | none => false

/-- One iteration of the per-agent portion of `poll_state_file` after the
scan: cooldown resolution, steps 1–4, returning the new state, the list of
agents whose idle reminder fired this tick, and the done-rumble count. -/
def tick (cfg : PollConfig) (st : TrackerState) (cur : List (Nat × AgentState))
    (now : Nat) : TrackerState × List Nat × Nat :=
  let inCooldown := inCooldownAt st.cooldown now
  let cooldown1 := match st.cooldown with
    | some cd => if now - cd < 5000 then some cd else none
    | none => none
  let s1 := tickStep1 cfg now cur st.records st.fired
  let s2 := tickStep2 cfg.subagentFilterMs now cur s1.1 s1.2.1
  let firedNow := tickStep3 cfg.idleReminderMs now inCooldown s2.1 s2.2
  let fired3 : List Nat := firedNow.foldl (fun f i => List.insert i f) s2.2
  let cooldown2 := if firedNow.isEmpty then cooldown1 else some now
  let s4 := tickStep4 cfg.idleReminderMs cur s2.1 fired3
  (⟨s4.1, s4.2, cooldown2⟩, firedNow, s1.2.2)

/-- Run a sequence of poll ticks, collecting the per-tick lists of agents
whose idle reminder fired. -/
def runTicks (cfg : PollConfig) (st : TrackerState) :
    List (List (Nat × AgentState) × Nat) → List (List Nat)
  | [] => []
  | (cur, now) :: rest =>
    let r := tick cfg st cur now
    r.2.1 :: runTicks cfg r.1 rest

/-! Definitions: mapper.rs (D-pad repeat timer) -/

def REPEAT_DELAY_MS : Nat := 300

def REPEAT_RATE_MS : Nat := 100

/-- Rust `RepeatTimer`: per-direction repeat tracking with two-frame
confirmation. -/
structure RepeatTimer where
  pending_since : Option Nat
  pressed_at : Option Nat
  last_fired : Option Nat
deriving DecidableEq

/-- Rust `RepeatTimer::on_press`. -/
def RepeatTimer.on_press (t : RepeatTimer) (now : Nat) : RepeatTimer :=
  { t with pending_since := some now }

/-- Rust `RepeatTimer::on_hold`: returns the updated timer and whether an
action fires this frame. -/
def RepeatTimer.on_hold (t : RepeatTimer) (now : Nat) : RepeatTimer × Bool :=
  match t.pending_since with
  | some pending =>
    ({ pending_since := none, pressed_at := some pending, last_fired := some now }, true)
  | none =>
    match t.pressed_at with
    | none => (t, false)
    | some pressedAt =>
      if now - pressedAt < REPEAT_DELAY_MS then (t, false)
      else if REPEAT_RATE_MS ≤ now - (t.last_fired.getD pressedAt) then
        ({ t with last_fired := some now }, true)
      else (t, false)

/-- Rust `RepeatTimer::on_release`. -/
def RepeatTimer.on_release (t : RepeatTimer) : RepeatTimer :=
  { t with pressed_at := none, pending_since := none }

/-- One frame of the `dpad!` macro in `MapperState::update` for a single
direction: `held`/`prev` are this and the previous frame's held state. -/
def dpadFrame (t : RepeatTimer) (held prev : Bool) (now : Nat) : RepeatTimer × Bool :=
  if held && !prev then (t.on_press now, false)
  else if held then t.on_hold now
  else (t.on_release, false)

/-- Drive the repeat timer over a list of frames `(now, held)`, threading the
previous held state as the mapper does; returns the times at which an action
was emitted. -/
def runDpad (t : RepeatTimer) (prev : Bool) : List (Nat × Bool) → List Nat
  | [] => []
  | (now, held) :: rest =>
    let r := dpadFrame t held prev now
    if r.2 then now :: runDpad r.1 held rest else runDpad r.1 held rest

/-- Spec-side description of the amended C5 repeat shape: after the confirm,
a held frame at time `t` fires exactly when at least `REPEAT_DELAY_MS` have
elapsed since the first frame `t0` of the press and at least `REPEAT_RATE_MS`
since the last fired action. -/
def repeatSpec (t0 last : Nat) : List Nat → List Nat
  | [] => []
  | t :: ts =>
    if REPEAT_DELAY_MS ≤ t - t0 ∧ REPEAT_RATE_MS ≤ t - last
    then t :: repeatSpec t0 t ts
    else repeatSpec t0 last ts

end DS4CC

deriving instance DecidableEq for Except

namespace DS4CC

/-! Theorems -/

/-- C1 counterexample: the claim as stated is false.  A DualSense USB report
with the correct preamble (length 64, byte 0 = 0x01) and an all-zero payload
does not parse to `UnifiedInput.default`: the sticks come out at (0, 0), the
hat nibble 0 decodes as D-pad Up, and the zero contact bytes (bit 7 clear)
mark both touch points active. -/
theorem c1_zero_payload_counterexample :
    parse ControllerType.DualSense ConnectionType.Usb (0x01 :: List.replicate 63 0)
      ≠ Except.ok UnifiedInput.default := by decide

/-- C1 (amended): for every (model, transport), a report with the
model/transport-correct preamble whose payload encodes the released state
(stick bytes 128, hat nibble 8, touch contact bytes 0x80) parses to
`UnifiedInput.default`. -/
theorem c1_dispatch_parity (ct : ControllerType) (conn : ConnectionType) :
    parse ct conn (neutralReport ct conn) = Except.ok UnifiedInput.default := by
  cases ct <;> cases conn <;> decide

/-- Folding the scan's priority update over any list yields Working as soon
as Working is in the list or already in the accumulator. -/
theorem aggregate_foldl_working (l : List AgentState) :
    ∀ acc : AgentState, (AgentState.Working ∈ l ∨ acc = AgentState.Working) →
      l.foldl (fun best state =>
        if best.priority < state.priority then state else best) acc
        = AgentState.Working := by
  induction l with
  | nil =>
    intro acc h
    rcases h with h | h
    · simp at h
    · simpa using h
  | cons s t ih =>
    intro acc h
    simp only [List.foldl_cons]
    apply ih
    rcases h with h | h
    · rcases List.mem_cons.mp h with rfl | hmem
      · right
        cases acc <;> rfl
      · left
        exact hmem
    · subst h
      right
      cases s <;> rfl

/-- C3: aggregation follows the strict total priority
Working > Error > Done > Idle: any list containing Working aggregates to
Working, `[done, error]` aggregates to Error, the empty list to Idle, and
the priority function is injective (strict and total). -/
theorem c3_state_priority :
    (∀ l : List AgentState, AgentState.Working ∈ l → aggregate l = AgentState.Working) ∧
    aggregate [AgentState.Done, AgentState.Error] = AgentState.Error ∧
    aggregate [] = AgentState.Idle ∧
    (∀ a b : AgentState, a ≠ b → a.priority ≠ b.priority) := by
  refine ⟨fun l h => aggregate_foldl_working l AgentState.Idle (Or.inl h),
    by decide, by decide, ?_⟩
  intro a b h
  cases a <;> cases b <;> revert h <;> decide

/-- C3 witness: concrete instances of both hypotheses-bearing conjuncts. -/
theorem c3_state_priority_witness :
    aggregate [AgentState.Working, AgentState.Idle] = AgentState.Working ∧
    AgentState.priority AgentState.Done ≠ AgentState.priority AgentState.Error :=
  ⟨c3_state_priority.1 _ (by decide), c3_state_priority.2.2.2 _ _ (by decide)⟩

/-- C7: in Idle, Done and Error the lightbar color is the configured solid
triple, independent of elapsed time; the Working brightness
`0.65 + 0.35 * sin(2 * pi * elapsed / period)` always lies in [0.30, 1.00];
and in Working the color is the configured base triple scaled component-wise
by that brightness (integer-truncated by the u8 cast). -/
theorem c7_compute_color :
    (∀ (config : LightbarConfig) (e : Nat),
      compute_color config AgentState.Idle e
        = (config.idle.r, config.idle.g, config.idle.b)) ∧
    (∀ (config : LightbarConfig) (e : Nat),
      compute_color config AgentState.Done e
        = (config.done.r, config.done.g, config.done.b)) ∧
    (∀ (config : LightbarConfig) (e : Nat),
      compute_color config AgentState.Error e
        = (config.error.r, config.error.g, config.error.b)) ∧
    (∀ p e : Nat, 0.3 ≤ working_brightness p e ∧ working_brightness p e ≤ 1) ∧
    (∀ (config : LightbarConfig) (e : Nat),
      compute_color config AgentState.Working e
        = (⌊(config.working.r : ℝ) * working_brightness config.pulse_period_ms e⌋₊,
           ⌊(config.working.g : ℝ) * working_brightness config.pulse_period_ms e⌋₊,
           ⌊(config.working.b : ℝ) * working_brightness config.pulse_period_ms e⌋₊)) := by
  refine ⟨fun _ _ => rfl, fun _ _ => rfl, fun _ _ => rfl, fun p e => ?_, fun _ _ => rfl⟩
  have h1 := Real.neg_one_le_sin ((e : ℝ) / (p : ℝ) * (2 * Real.pi))
  have h2 := Real.sin_le_one ((e : ℝ) / (p : ℝ) * (2 * Real.pi))
  unfold working_brightness
  constructor <;> nlinarith

/-- C5 counterexample: the claim as stated is false.  Holding a direction on
a 16 ms frame clock (frames at 0, 16, ..., 304) confirms at the second frame
(t = 16) and then fires again at t = 304, which is 288 ms — less than
300 ms — after the confirm, because the code measures the repeat delay from
the first frame of the press (`pressed_at` is set to the pending time), not
from the confirm. -/
theorem c5_repeat_counterexample :
    runDpad ⟨none, none, none⟩ false ((List.range 20).map (fun k => (16 * k, true)))
        = [16, 304] ∧ 304 - 16 < 300 := by decide

/-- Once armed (`pending_since = none`, `pressed_at = some t0`,
`last_fired = some last`), the timer fires on a held frame at time `t`
exactly when `t - t0 ≥ 300` and `t - last ≥ 100`. -/
theorem runDpad_armed (t0 : Nat) :
    ∀ (rest : List Nat) (last : Nat),
      runDpad ⟨none, some t0, some last⟩ true (rest.map (fun t => (t, true)))
        = repeatSpec t0 last rest := by
  intro rest
  induction rest with
  | nil => intro last; rfl
  | cons t ts ih =>
    intro last
    by_cases h1 : t - t0 < REPEAT_DELAY_MS
    · have h1' : ¬ (REPEAT_DELAY_MS ≤ t - t0 ∧ REPEAT_RATE_MS ≤ t - last) :=
        fun hc => absurd hc.1 (by omega)
      simp [runDpad, dpadFrame, RepeatTimer.on_hold, repeatSpec, h1, h1', ih last]
    · by_cases h2 : REPEAT_RATE_MS ≤ t - last
      · have hc : REPEAT_DELAY_MS ≤ t - t0 ∧ REPEAT_RATE_MS ≤ t - last := ⟨by omega, h2⟩
        simp [runDpad, dpadFrame, RepeatTimer.on_hold, repeatSpec, h1, h2, hc, ih t]
      · have h1' : ¬ (REPEAT_DELAY_MS ≤ t - t0 ∧ REPEAT_RATE_MS ≤ t - last) :=
          fun hc => absurd hc.2 h2
        simp [runDpad, dpadFrame, RepeatTimer.on_hold, repeatSpec, h1, h2, h1', ih last]

/-- C5 (amended): holding a D-pad direction continuously emits exactly one
action on the second frame of the press (the confirm); after that, a held
frame at time `t` emits an action exactly when at least 300 ms have elapsed
since the first frame of the press and at least 100 ms since the previously
emitted action.  (The 300 ms delay is measured from the first frame, not from
the confirm, and repeats land on frame boundaries rather than exactly every
100 ms.) -/
theorem c5_dpad_repeat_shape (t0 t1 : Nat) (rest : List Nat) :
    runDpad ⟨none, none, none⟩ false
        ((t0, true) :: (t1, true) :: rest.map (fun t => (t, true)))
      = t1 :: repeatSpec t0 t1 rest := by
  show t1 :: runDpad ⟨none, some t0, some t1⟩ true (rest.map (fun t => (t, true)))
    = t1 :: repeatSpec t0 t1 rest
  rw [runDpad_armed]

/-- C8: a single frame of a held D-pad direction followed by a released
frame emits no action at all — the press never gets past the pending state. -/
theorem c8_dpad_glitch_filter (t0 t1 : Nat) :
    runDpad ⟨none, none, none⟩ false [(t0, true), (t1, false)] = [] := rfl

/-- C9: for each DualSense variant, a buffer that covers sticks and buttons
but is too short for the touch region (length in `[off+10, off+40)`) parses
successfully with both touch points inactive-default, and `TooShort` is
returned exactly when the buffer is shorter than the variant's minimum
stick/button length `off + 10`. -/
theorem c9_touch_region (data : List Nat) :
    (ds_usb_off data + 10 ≤ data.length → data.length < ds_usb_off data + 40 →
      (parse_dualsense_usb data).map (fun u => u.touchpad)
        = Except.ok (TouchPoint.default, TouchPoint.default)) ∧
    ((parse_dualsense_usb data
        = Except.error (ParseError.TooShort (ds_usb_off data + 10) data.length))
      ↔ data.length < ds_usb_off data + 10) ∧
    (ds_bt_off data + 10 ≤ data.length → data.length < ds_bt_off data + 40 →
      (parse_dualsense_bt data).map (fun u => u.touchpad)
        = Except.ok (TouchPoint.default, TouchPoint.default)) ∧
    ((parse_dualsense_bt data
        = Except.error (ParseError.TooShort (ds_bt_off data + 10) data.length))
      ↔ data.length < ds_bt_off data + 10) := by
  refine ⟨fun h1 h2 => ?_, ?_, fun h1 h2 => ?_, ?_⟩
  · simp only [parse_dualsense_usb]
    rw [if_neg (by omega)]
    simp [Except.map, parse_touch_points, if_pos h2]
  · simp only [parse_dualsense_usb]
    split
    next h => simp [h]
    next h => simp [h]
  · simp only [parse_dualsense_bt]
    rw [if_neg (by omega)]
    simp [Except.map, parse_touch_points, if_pos h2]
  · simp only [parse_dualsense_bt]
    split
    next h => simp [h]
    next h => simp [h]

/-- C9 witness: a 12-byte all-zero buffer (length in `[10, 40)`) parses
successfully with default touch points. -/
theorem c9_touch_region_witness :
    (parse_dualsense_usb (List.replicate 12 0)).map (fun u => u.touchpad)
      = Except.ok (TouchPoint.default, TouchPoint.default) :=
  (c9_touch_region (List.replicate 12 0)).1 (by decide) (by decide)

/-- Every CRC table entry is a 32-bit value (checked entrywise). -/
theorem crc32Table_lt_aux : ∀ i : Fin 256, crc32Table i.val < 4294967296 := by decide

theorem crc32Table_lt (i : Nat) (h : i < 256) : crc32Table i < 4294967296 :=
  crc32Table_lt_aux ⟨i, h⟩

/-- One CRC step keeps the accumulator below 2^32 when fed a byte. -/
theorem crcStep_lt (crc b : Nat) (hc : crc < 4294967296) (hb : b < 256) :
    crcStep crc b < 4294967296 := by
  unfold crcStep
  have hm : crc % 256 < 2 ^ 8 := by
    have := Nat.mod_lt crc (show 0 < 256 by norm_num)
    simpa using this
  have hb' : b < 2 ^ 8 := by simpa using hb
  have h2 : (crc % 256) ^^^ b < 2 ^ 8 := Nat.xor_lt_two_pow hm hb'
  have h3 : crc32Table ((crc % 256) ^^^ b) < 2 ^ 32 := by
    simpa using crc32Table_lt _ (by simpa using h2)
  have h1 : crc >>> 8 < 2 ^ 32 := by
    rw [Nat.shiftRight_eq_div_pow]
    have := Nat.div_le_self crc (2 ^ 8)
    simpa using Nat.lt_of_le_of_lt this hc
  simpa using Nat.xor_lt_two_pow h1 h3

/-- The CRC fold keeps the accumulator below 2^32 on byte input. -/
theorem crcFold_lt (data : List Nat) : ∀ crc, crc < 4294967296 →
    (∀ x ∈ data, x < 256) → data.foldl crcStep crc < 4294967296 := by
  induction data with
  | nil => intro crc h _; simpa using h
  | cons b t ih =>
    intro crc h hb
    simp only [List.foldl_cons]
    exact ih _ (crcStep_lt _ _ h (hb b (by simp))) (fun x hx => hb x (by simp [hx]))

/-- The computed CRC is a 32-bit value on byte input. -/
theorem crcCalc_lt (seed : Nat) (data : List Nat) (hs : seed < 256)
    (hd : ∀ x ∈ data, x < 256) : crcCalc seed data < 4294967296 := by
  unfold crcCalc
  have h0 : crcStep 0xFFFFFFFF seed < 4294967296 := crcStep_lt _ _ (by norm_num) hs
  have h1 : data.foldl crcStep (crcStep 0xFFFFFFFF seed) < 2 ^ 32 := by
    simpa using crcFold_lt data _ h0 hd
  have h2 : (0xFFFFFFFF : Nat) < 2 ^ 32 := by norm_num
  simpa using Nat.xor_lt_two_pow h1 h2

/-- Little-endian split and reassembly of a 32-bit value round-trips. -/
theorem fromLeBytes_leBytes (x : Nat) (h : x < 4294967296) :
    fromLeBytes (x % 256) ((x >>> 8) % 256) ((x >>> 16) % 256) ((x >>> 24) % 256)
      = x := by
  have e8 : x >>> 8 = x / 256 := by
    rw [Nat.shiftRight_eq_div_pow]
  have e16 : x >>> 16 = x / 65536 := by
    rw [Nat.shiftRight_eq_div_pow]
  have e24 : x >>> 24 = x / 16777216 := by
    rw [Nat.shiftRight_eq_div_pow]
  simp only [fromLeBytes, e8, e16, e24]
  omega

/-- Validation succeeds on a byte buffer followed by the little-endian CRC of
that buffer. -/
theorem validate_append_le (seed : Nat) (A : List Nat) (hs : seed < 256)
    (hA : ∀ x ∈ A, x < 256) :
    validate seed (A ++ leBytes (crcCalc seed A)) = true := by
  have hlen : (A ++ leBytes (crcCalc seed A)).length = A.length + 4 := by
    simp [leBytes]
  unfold validate
  rw [if_neg (by omega)]
  have h4 : (A ++ leBytes (crcCalc seed A)).length - 4 = A.length := by omega
  rw [h4, List.take_left, List.drop_left]
  simp [leBytes, fromLeBytes_leBytes _ (crcCalc_lt seed A hs hA)]

/-- Stamping a buffer at its last four bytes makes it validate. -/
theorem validate_stamp_end (seed : Nat) (buf : List Nat) (hs : seed < 256)
    (hb : ∀ x ∈ buf, x < 256) (hlen : 4 ≤ buf.length) :
    validate seed (stamp seed buf (buf.length - 4)) = true := by
  unfold stamp
  have hdrop : buf.drop (buf.length - 4 + 4) = [] := by
    apply List.drop_eq_nil_of_le
    omega
  rw [hdrop, List.append_nil]
  exact validate_append_le seed _ hs (fun x hx => hb x (List.take_subset _ _ hx))

/-- Shifting right distributes over xor. -/
theorem xor_shiftRight (x y n : Nat) :
    (x ^^^ y) >>> n = (x >>> n) ^^^ (y >>> n) := by
  apply Nat.eq_of_testBit_eq
  intro i
  simp [Nat.testBit_shiftRight, Nat.testBit_xor]

/-- The top byte of a CRC step is the top byte of the table entry it used,
because `crc >> 8` has a zero top byte for 32-bit accumulators. -/
theorem crcStep_shiftRight24 (crc b : Nat) (hc : crc < 4294967296) :
    crcStep crc b >>> 24 = crc32Table ((crc % 256) ^^^ b) >>> 24 := by
  unfold crcStep
  rw [xor_shiftRight]
  have hpow : (2 : Nat) ^ (8 + 24) = 4294967296 := by norm_num
  have h32 : crc >>> 8 >>> 24 = 0 := by
    rw [← Nat.shiftRight_add, Nat.shiftRight_eq_div_pow, hpow]
    exact Nat.div_eq_of_lt hc
  rw [h32, Nat.zero_xor]

/-- The CRC table entries have pairwise distinct top bytes (checked over all
256 × 256 index pairs); this is what makes each CRC step invertible. -/
theorem crc32Table_top_inj_aux :
    ∀ i j : Fin 256, crc32Table i.val >>> 24 = crc32Table j.val >>> 24 → i = j := by
  decide

/-- Xor of two bytes is a byte. -/
theorem byte_xor_lt (a b : Nat) (ha : a < 256) (hb : b < 256) : a ^^^ b < 256 := by
  have := Nat.xor_lt_two_pow (show a < 2 ^ 8 by simpa using ha)
    (show b < 2 ^ 8 by simpa using hb)
  simpa using this

/-- A CRC step is injective in the accumulator for a fixed byte. -/
theorem crcStep_inj_crc (b c1 c2 : Nat) (hb : b < 256) (h1 : c1 < 4294967296)
    (h2 : c2 < 4294967296) (he : crcStep c1 b = crcStep c2 b) : c1 = c2 := by
  have hm1 : c1 % 256 < 256 := Nat.mod_lt _ (by norm_num)
  have hm2 : c2 % 256 < 256 := Nat.mod_lt _ (by norm_num)
  have hi1 : (c1 % 256) ^^^ b < 256 := byte_xor_lt _ _ hm1 hb
  have hi2 : (c2 % 256) ^^^ b < 256 := byte_xor_lt _ _ hm2 hb
  have htop : crc32Table ((c1 % 256) ^^^ b) >>> 24
      = crc32Table ((c2 % 256) ^^^ b) >>> 24 := by
    rw [← crcStep_shiftRight24 c1 b h1, ← crcStep_shiftRight24 c2 b h2, he]
  have hfin : (⟨(c1 % 256) ^^^ b, hi1⟩ : Fin 256) = ⟨(c2 % 256) ^^^ b, hi2⟩ :=
    crc32Table_top_inj_aux _ _ htop
  have hidx : (c1 % 256) ^^^ b = (c2 % 256) ^^^ b := congrArg Fin.val hfin
  have hmod : c1 % 256 = c2 % 256 := by
    have := congrArg (fun z => z ^^^ b) hidx
    simpa [Nat.xor_cancel_right] using this
  have hshift : c1 >>> 8 = c2 >>> 8 := by
    have he' := he
    unfold crcStep at he'
    rw [hidx] at he'
    have := congrArg (fun z => z ^^^ crc32Table ((c2 % 256) ^^^ b)) he'
    simpa [Nat.xor_cancel_right] using this
  have e1 : c1 >>> 8 = c1 / 256 := by rw [Nat.shiftRight_eq_div_pow]
  have e2 : c2 >>> 8 = c2 / 256 := by rw [Nat.shiftRight_eq_div_pow]
  rw [e1, e2] at hshift
  omega

/-- A CRC step is injective in the byte for a fixed 32-bit accumulator. -/
theorem crcStep_inj_byte (crc b1 b2 : Nat) (hc : crc < 4294967296) (hb1 : b1 < 256)
    (hb2 : b2 < 256) (he : crcStep crc b1 = crcStep crc b2) : b1 = b2 := by
  have hm : crc % 256 < 256 := Nat.mod_lt _ (by norm_num)
  have hi1 : (crc % 256) ^^^ b1 < 256 := byte_xor_lt _ _ hm hb1
  have hi2 : (crc % 256) ^^^ b2 < 256 := byte_xor_lt _ _ hm hb2
  have htop : crc32Table ((crc % 256) ^^^ b1) >>> 24
      = crc32Table ((crc % 256) ^^^ b2) >>> 24 := by
    rw [← crcStep_shiftRight24 crc b1 hc, ← crcStep_shiftRight24 crc b2 hc, he]
  have hfin := crc32Table_top_inj_aux ⟨_, hi1⟩ ⟨_, hi2⟩ htop
  have hidx : (crc % 256) ^^^ b1 = (crc % 256) ^^^ b2 := congrArg Fin.val hfin
  exact Nat.xor_right_injective hidx

/-- The CRC fold is injective in the starting accumulator over byte data. -/
theorem crcFold_inj (data : List Nat) (hd : ∀ x ∈ data, x < 256) :
    ∀ c1 c2, c1 < 4294967296 → c2 < 4294967296 →
      data.foldl crcStep c1 = data.foldl crcStep c2 → c1 = c2 := by
  induction data with
  | nil =>
    intro c1 c2 _ _ h
    simpa using h
  | cons b t ih =>
    intro c1 c2 h1 h2 h
    simp only [List.foldl_cons] at h
    have hb : b < 256 := hd b (by simp)
    have := ih (fun x hx => hd x (by simp [hx])) _ _
      (crcStep_lt _ _ h1 hb) (crcStep_lt _ _ h2 hb) h
    exact crcStep_inj_crc b c1 c2 hb h1 h2 this

/-- Changing a single byte of the data changes the CRC. -/
theorem crcCalc_single_change (seed : Nat) (hs : seed < 256) (pre suf : List Nat)
    (x y : Nat) (hx : x < 256) (hy : y < 256)
    (hpre : ∀ a ∈ pre, a < 256) (hsuf : ∀ a ∈ suf, a < 256) (hne : x ≠ y) :
    crcCalc seed (pre ++ x :: suf) ≠ crcCalc seed (pre ++ y :: suf) := by
  intro he
  unfold crcCalc at he
  have he' : (pre ++ x :: suf).foldl crcStep (crcStep 0xFFFFFFFF seed)
      = (pre ++ y :: suf).foldl crcStep (crcStep 0xFFFFFFFF seed) := by
    have := congrArg (fun z => z ^^^ 0xFFFFFFFF) he
    simpa [Nat.xor_cancel_right] using this
  rw [List.foldl_append, List.foldl_append] at he'
  simp only [List.foldl_cons] at he'
  have hcbound : pre.foldl crcStep (crcStep 0xFFFFFFFF seed) < 4294967296 :=
    crcFold_lt pre _ (crcStep_lt _ _ (by norm_num) hs) hpre
  have hxeq := crcFold_inj suf hsuf _ _ (crcStep_lt _ _ hcbound hx)
    (crcStep_lt _ _ hcbound hy) he'
  exact hne (crcStep_inj_byte _ x y hcbound hx hy hxeq)

/-- Validation fails when the trailing four bytes do not reassemble to the
CRC of the leading bytes. -/
theorem validate_append_four_ne (seed : Nat) (A B : List Nat) (hBlen : B.length = 4)
    (hne : fromLeBytes (B.getD 0 0) (B.getD 1 0) (B.getD 2 0) (B.getD 3 0)
      ≠ crcCalc seed A) :
    validate seed (A ++ B) = false := by
  have hlen : (A ++ B).length = A.length + 4 := by simp [hBlen]
  unfold validate
  rw [if_neg (by omega)]
  have h4 : (A ++ B).length - 4 = A.length := by omega
  rw [h4, List.take_left, List.drop_left]
  simpa [beq_eq_false_iff_ne] using hne

/-- Reassembling the four little-endian `getD` reads of `leBytes c` gives
back `c` for 32-bit `c`. -/
theorem fromLeBytes_getD_leBytes (c : Nat) (hc : c < 4294967296) :
    fromLeBytes ((leBytes c).getD 0 0) ((leBytes c).getD 1 0) ((leBytes c).getD 2 0)
      ((leBytes c).getD 3 0) = c := by
  simpa [leBytes] using fromLeBytes_leBytes c hc

/-- C2: for every byte buffer of length at least n+4 and every seed byte,
stamping at offset n makes the first n+4 bytes validate; and corrupting any
single byte of those n+4 bytes (replacing it with a different byte value)
makes validation fail. -/
theorem c2_crc_round_trip (seed n : Nat) (b : List Nat) (hs : seed < 256)
    (hb : ∀ x ∈ b, x < 256) (hlen : n + 4 ≤ b.length) :
    validate seed ((stamp seed b n).take (n + 4)) = true ∧
    (∀ i v, i < n + 4 → v < 256 → v ≠ ((stamp seed b n).take (n + 4)).getD i 0 →
      validate seed (((stamp seed b n).take (n + 4)).set i v) = false) := by
  have hAlen : (b.take n).length = n := by
    simp [List.length_take]
    omega
  have hAbytes : ∀ x ∈ b.take n, x < 256 := fun x hx => hb x (List.take_subset _ _ hx)
  have hcrc : crcCalc seed (b.take n) < 4294967296 := crcCalc_lt _ _ hs hAbytes
  have hT : (stamp seed b n).take (n + 4)
      = b.take n ++ leBytes (crcCalc seed (b.take n)) := by
    unfold stamp
    rw [List.append_assoc]
    rw [show n + 4 = (b.take n).length + 4 by rw [hAlen]]
    rw [List.take_append]
    rfl
  constructor
  · rw [hT]
    exact validate_append_le seed _ hs hAbytes
  · intro i v hi hv hne
    rw [hT] at hne ⊢
    by_cases hcase : i < n
    · -- a data byte was corrupted: the recomputed CRC changes
      have hiA : i < (b.take n).length := by omega
      rw [List.set_append_left i v hiA]
      rw [List.getD_append _ _ 0 i hiA, List.getD_eq_getElem _ 0 hiA] at hne
      apply validate_append_four_ne seed _ _ (by simp [leBytes])
      rw [fromLeBytes_getD_leBytes _ hcrc]
      have hsplit : b.take n
          = (b.take n).take i ++ (b.take n)[i] :: (b.take n).drop (i + 1) := by
        conv_lhs => rw [← List.take_append_drop i (b.take n)]
        rw [List.drop_eq_getElem_cons hiA]
      have hsetsplit : (b.take n).set i v
          = (b.take n).take i ++ v :: (b.take n).drop (i + 1) := by
        rw [List.set_eq_take_append_cons_drop, if_pos hiA]
      have hkey : crcCalc seed
            ((b.take n).take i ++ (b.take n)[i] :: (b.take n).drop (i + 1))
          ≠ crcCalc seed ((b.take n).take i ++ v :: (b.take n).drop (i + 1)) :=
        crcCalc_single_change seed hs _ _ _ _
          (hAbytes _ (List.getElem_mem hiA)) hv
          (fun a ha => hAbytes a (List.take_subset _ _ ha))
          (fun a ha => hAbytes a (List.drop_subset _ _ ha))
          (Ne.symm hne)
      rw [← hsplit, ← hsetsplit] at hkey
      exact hkey
    · -- a CRC byte was corrupted: the stored CRC no longer matches
      have hiA : (b.take n).length ≤ i := by omega
      rw [List.set_append_right i v hiA]
      rw [List.getD_append_right _ _ 0 i hiA] at hne
      apply validate_append_four_ne seed _ _ (by simp [leBytes])
      have e8 : crcCalc seed (b.take n) >>> 8 = crcCalc seed (b.take n) / 256 := by
        rw [Nat.shiftRight_eq_div_pow]
      have e16 : crcCalc seed (b.take n) >>> 16 = crcCalc seed (b.take n) / 65536 := by
        rw [Nat.shiftRight_eq_div_pow]
      have e24 : crcCalc seed (b.take n) >>> 24
          = crcCalc seed (b.take n) / 16777216 := by
        rw [Nat.shiftRight_eq_div_pow]
      have hj : i - (b.take n).length = 0 ∨ i - (b.take n).length = 1 ∨
          i - (b.take n).length = 2 ∨ i - (b.take n).length = 3 := by omega
      rcases hj with h0 | h1 | h2 | h3
      · rw [h0] at hne ⊢
        simp only [leBytes, List.getD_cons_zero, List.getD_cons_succ,
          List.set_cons_zero] at hne ⊢
        simp only [fromLeBytes, e8, e16, e24] at hne ⊢
        omega
      · rw [h1] at hne ⊢
        simp only [leBytes, List.getD_cons_zero, List.getD_cons_succ,
          List.set_cons_zero, List.set_cons_succ] at hne ⊢
        simp only [fromLeBytes, e8, e16, e24] at hne ⊢
        omega
      · rw [h2] at hne ⊢
        simp only [leBytes, List.getD_cons_zero, List.getD_cons_succ,
          List.set_cons_zero, List.set_cons_succ] at hne ⊢
        simp only [fromLeBytes, e8, e16, e24] at hne ⊢
        omega
      · rw [h3] at hne ⊢
        simp only [leBytes, List.getD_cons_zero, List.getD_cons_succ,
          List.set_cons_zero, List.set_cons_succ] at hne ⊢
        simp only [fromLeBytes, e8, e16, e24] at hne ⊢
        omega

/-- C2 witness: on a concrete 7-byte buffer stamped at offset 3, the first 7
bytes validate, and corrupting byte 0 makes validation fail. -/
theorem c2_crc_round_trip_witness :
    validate 0xA2 ((stamp 0xA2 [1, 2, 3, 0, 0, 0, 0] 3).take 7) = true ∧
    validate 0xA2 (((stamp 0xA2 [1, 2, 3, 0, 0, 0, 0] 3).take 7).set 0 9) = false := by
  have h := c2_crc_round_trip 0xA2 3 [1, 2, 3, 0, 0, 0, 0] (by norm_num) (by decide)
    (by norm_num)
  exact ⟨h.1, h.2 0 9 (by norm_num) (by norm_num) (by decide)⟩

/-- Setting one byte below 256 in an all-bytes list keeps all entries below 256. -/
theorem mem_set_lt (l : List Nat) (i v : Nat) (hl : ∀ x ∈ l, x < 256)
    (hv : v < 256) : ∀ x ∈ l.set i v, x < 256 := by
  intro x hx
  rcases List.mem_or_eq_of_mem_set hx with h | rfl
  · exact hl x h
  · exact hv

/-- All bytes of the DualSense BT body are bytes when the output fields are. -/
theorem dualsense_bt_body_lt (s : OutputState) (h1 : s.lightbar_r < 256)
    (h2 : s.lightbar_g < 256) (h3 : s.lightbar_b < 256) (h4 : s.rumble_left < 256)
    (h5 : s.rumble_right < 256) (h6 : s.player_leds < 256) :
    ∀ x ∈ dualsense_bt_body s, x < 256 := by
  have hrep : ∀ x ∈ List.replicate 78 (0 : Nat), x < 256 := by
    intro x hx
    rcases List.eq_of_mem_replicate hx with rfl
    norm_num
  unfold dualsense_bt_body
  refine mem_set_lt _ _ _ ?_ h3
  refine mem_set_lt _ _ _ ?_ h2
  refine mem_set_lt _ _ _ ?_ h1
  refine mem_set_lt _ _ _ ?_ h6
  refine mem_set_lt _ _ _ ?_ (by norm_num)
  refine mem_set_lt _ _ _ ?_ (by norm_num)
  refine mem_set_lt _ _ _ ?_ (by norm_num)
  refine mem_set_lt _ _ _ ?_ h4
  refine mem_set_lt _ _ _ ?_ h5
  refine mem_set_lt _ _ _ ?_ (by norm_num)
  refine mem_set_lt _ _ _ ?_ (by norm_num)
  refine mem_set_lt _ _ _ ?_ (by norm_num)
  refine mem_set_lt _ _ _ ?_ (by norm_num)
  exact hrep

/-- All bytes of the DS4 BT body are bytes when the output fields are. -/
theorem ds4_bt_body_lt (s : OutputState) (h1 : s.lightbar_r < 256)
    (h2 : s.lightbar_g < 256) (h3 : s.lightbar_b < 256) (h4 : s.rumble_left < 256)
    (h5 : s.rumble_right < 256) : ∀ x ∈ ds4_bt_body s, x < 256 := by
  have hrep : ∀ x ∈ List.replicate 79 (0 : Nat), x < 256 := by
    intro x hx
    rcases List.eq_of_mem_replicate hx with rfl
    norm_num
  unfold ds4_bt_body
  refine mem_set_lt _ _ _ ?_ h3
  refine mem_set_lt _ _ _ ?_ h2
  refine mem_set_lt _ _ _ ?_ h1
  refine mem_set_lt _ _ _ ?_ h4
  refine mem_set_lt _ _ _ ?_ h5
  refine mem_set_lt _ _ _ ?_ (by norm_num)
  refine mem_set_lt _ _ _ ?_ (by norm_num)
  refine mem_set_lt _ _ _ ?_ (by norm_num)
  exact hrep

/-- C6: both Bluetooth output reports are byte-exact per the documented
layout and end with the little-endian CRC-32 (seed 0xA2) of all preceding
bytes, so they validate. -/
theorem c6_bt_output_layout (s : OutputState) (h1 : s.lightbar_r < 256)
    (h2 : s.lightbar_g < 256) (h3 : s.lightbar_b < 256) (h4 : s.rumble_left < 256)
    (h5 : s.rumble_right < 256) (h6 : s.player_leds < 256) :
    (((build_dualsense_bt s).length = 78 ∧
      (build_dualsense_bt s).getD 0 0 = 0x31 ∧
      (build_dualsense_bt s).getD 1 0 = 0x02 ∧
      (build_dualsense_bt s).getD 4 0 = s.rumble_right ∧
      (build_dualsense_bt s).getD 5 0 = s.rumble_left ∧
      (build_dualsense_bt s).getD 45 0 = s.player_leds ∧
      (build_dualsense_bt s).getD 46 0 = s.lightbar_r ∧
      (build_dualsense_bt s).getD 47 0 = s.lightbar_g ∧
      (build_dualsense_bt s).getD 48 0 = s.lightbar_b ∧
      (build_dualsense_bt s).drop 74
        = leBytes (crcCalc SEED_OUTPUT ((build_dualsense_bt s).take 74))) ∧
     validate SEED_OUTPUT (build_dualsense_bt s) = true) ∧
    (((build_ds4_bt s).length = 79 ∧
      (build_ds4_bt s).getD 0 0 = 0x11 ∧
      (build_ds4_bt s).getD 1 0 = 0x80 ∧
      (build_ds4_bt s).getD 3 0 = 0xF7 ∧
      (build_ds4_bt s).getD 6 0 = s.rumble_right ∧
      (build_ds4_bt s).getD 7 0 = s.rumble_left ∧
      (build_ds4_bt s).getD 8 0 = s.lightbar_r ∧
      (build_ds4_bt s).getD 9 0 = s.lightbar_g ∧
      (build_ds4_bt s).getD 10 0 = s.lightbar_b ∧
      (build_ds4_bt s).drop 75
        = leBytes (crcCalc SEED_OUTPUT ((build_ds4_bt s).take 75))) ∧
     validate SEED_OUTPUT (build_ds4_bt s) = true) := by
  have hds : dualsense_bt_body s =
      [0x31, 0x02, 0x0F, 0x55, s.rumble_right, s.rumble_left, 0, 0, 0, 0, 0, 0, 0, 0, 0, 0, 0, 
      0, 0, 0, 0, 0, 0, 0, 0, 0, 0, 0, 0, 0, 0, 0, 0, 0, 0, 0, 0, 0, 0, 0, 0x02, 0, 0, 0x02, 
      0x00, s.player_leds, s.lightbar_r, s.lightbar_g, s.lightbar_b, 0, 0, 0, 0, 0, 0, 0, 0, 0, 
      0, 0, 0, 0, 0, 0, 0, 0, 0, 0, 0, 0, 0, 0, 0, 0, 0, 0, 0, 0] := rfl
  have hds4 : ds4_bt_body s =
      [0x11, 0x80, 0, 0xF7, 0, 0, s.rumble_right, s.rumble_left, s.lightbar_r, s.lightbar_g, 
      s.lightbar_b, 0, 0, 0, 0, 0, 0, 0, 0, 0, 0, 0, 0, 0, 0, 0, 0, 0, 0, 0, 0, 0, 0, 0, 0, 0, 
      0, 0, 0, 0, 0, 0, 0, 0, 0, 0, 0, 0, 0, 0, 0, 0, 0, 0, 0, 0, 0, 0, 0, 0, 0, 0, 0, 0, 0, 0, 
      0, 0, 0, 0, 0, 0, 0, 0, 0, 0, 0, 0, 0] := rfl
  have hbds : build_dualsense_bt s =
      [0x31, 0x02, 0x0F, 0x55, s.rumble_right, s.rumble_left, 0, 0, 0, 0, 0, 0, 0, 0, 0, 0, 0, 
      0, 0, 0, 0, 0, 0, 0, 0, 0, 0, 0, 0, 0, 0, 0, 0, 0, 0, 0, 0, 0, 0, 0, 0x02, 0, 0, 0x02, 
      0x00, s.player_leds, s.lightbar_r, s.lightbar_g, s.lightbar_b, 0, 0, 0, 0, 0, 0, 0, 0, 0, 
      0, 0, 0, 0, 0, 0, 0, 0, 0, 0, 0, 0, 0, 0, 0, 0]
      ++ leBytes (crcCalc SEED_OUTPUT
      [0x31, 0x02, 0x0F, 0x55, s.rumble_right, s.rumble_left, 0, 0, 0, 0, 0, 0, 0, 0, 0, 0, 0, 
      0, 0, 0, 0, 0, 0, 0, 0, 0, 0, 0, 0, 0, 0, 0, 0, 0, 0, 0, 0, 0, 0, 0, 0x02, 0, 0, 0x02, 
      0x00, s.player_leds, s.lightbar_r, s.lightbar_g, s.lightbar_b, 0, 0, 0, 0, 0, 0, 0, 0, 0, 
      0, 0, 0, 0, 0, 0, 0, 0, 0, 0, 0, 0, 0, 0, 0, 0]) := by
    simp only [build_dualsense_bt]
    rw [hds]
    rfl
  have hbds4 : build_ds4_bt s =
      [0x11, 0x80, 0, 0xF7, 0, 0, s.rumble_right, s.rumble_left, s.lightbar_r, s.lightbar_g, 
      s.lightbar_b, 0, 0, 0, 0, 0, 0, 0, 0, 0, 0, 0, 0, 0, 0, 0, 0, 0, 0, 0, 0, 0, 0, 0, 0, 0, 
      0, 0, 0, 0, 0, 0, 0, 0, 0, 0, 0, 0, 0, 0, 0, 0, 0, 0, 0, 0, 0, 0, 0, 0, 0, 0, 0, 0, 0, 0, 
      0, 0, 0, 0, 0, 0, 0, 0, 0]
      ++ leBytes (crcCalc SEED_OUTPUT
      [0x11, 0x80, 0, 0xF7, 0, 0, s.rumble_right, s.rumble_left, s.lightbar_r, s.lightbar_g, 
      s.lightbar_b, 0, 0, 0, 0, 0, 0, 0, 0, 0, 0, 0, 0, 0, 0, 0, 0, 0, 0, 0, 0, 0, 0, 0, 0, 0, 
      0, 0, 0, 0, 0, 0, 0, 0, 0, 0, 0, 0, 0, 0, 0, 0, 0, 0, 0, 0, 0, 0, 0, 0, 0, 0, 0, 0, 0, 0, 
      0, 0, 0, 0, 0, 0, 0, 0, 0]) := by
    simp only [build_ds4_bt]
    rw [hds4]
    rfl
  constructor
  · constructor
    · refine ⟨?_, ?_, ?_, ?_, ?_, ?_, ?_, ?_, ?_, ?_⟩ <;> rw [hbds] <;> rfl
    · exact validate_stamp_end SEED_OUTPUT (dualsense_bt_body s)
        (by norm_num [SEED_OUTPUT]) (dualsense_bt_body_lt s h1 h2 h3 h4 h5 h6)
        (by simp [dualsense_bt_body])
  · constructor
    · refine ⟨?_, ?_, ?_, ?_, ?_, ?_, ?_, ?_, ?_, ?_⟩ <;> rw [hbds4] <;> rfl
    · exact validate_stamp_end SEED_OUTPUT (ds4_bt_body s)
        (by norm_num [SEED_OUTPUT]) (ds4_bt_body_lt s h1 h2 h3 h4 h5)
        (by simp [ds4_bt_body])

/-- C6 witness: both BT reports built from a concrete output state validate. -/
theorem c6_bt_output_layout_witness :
    validate SEED_OUTPUT (build_dualsense_bt ⟨1, 2, 3, 4, 5, 6⟩) = true ∧
    validate SEED_OUTPUT (build_ds4_bt ⟨1, 2, 3, 4, 5, 6⟩) = true :=
  ⟨(c6_bt_output_layout ⟨1, 2, 3, 4, 5, 6⟩ (by norm_num) (by norm_num) (by norm_num)
      (by norm_num) (by norm_num) (by norm_num)).1.2,
   (c6_bt_output_layout ⟨1, 2, 3, 4, 5, 6⟩ (by norm_num) (by norm_num) (by norm_num)
      (by norm_num) (by norm_num) (by norm_num)).2.2⟩

/-- C10: when the state directory cannot be read (missing or inaccessible),
the scan returns aggregated state Idle with an empty agent map; the scan is
a pure function of the directory view only, so no tracker state is touched. -/
theorem c10_scan_missing_dir (staleTimeoutSecs : Nat) :
    scan_agent_states none staleTimeoutSecs = (AgentState.Idle, []) := rfl

/-- Association-list lookup on a cons cell, as an if. -/
theorem lookup_cons {β : Type _} (a k : Nat) (v : β) (t : List (Nat × β)) :
    List.lookup a ((k, v) :: t) = if a == k then some v else List.lookup a t := by
  cases h : a == k <;> simp [List.lookup, h]

/-- Lookup misses exactly when no pair carries the key. -/
theorem lookup_eq_none_iff {β : Type _} (a : Nat) (l : List (Nat × β)) :
    List.lookup a l = none ↔ ∀ p ∈ l, p.1 ≠ a := by
  induction l with
  | nil => simp
  | cons p t ih =>
    cases p with | mk k v =>
    rw [lookup_cons]
    by_cases h : a = k
    · subst h
      simp
    · have hb : (a == k) = false := beq_eq_false_iff_ne.mpr h
      simp [hb, ih, Ne.symm h]

/-- Lookup after a replacement insert of the same key. -/
theorem lookup_upsertRec_self (k : Nat) (v : ARec) :
    ∀ l, List.lookup k (upsertRec k v l) = some v := by
  intro l
  induction l with
  | nil => simp [upsertRec, lookup_cons]
  | cons p t ih =>
    cases p with | mk k' w =>
    unfold upsertRec
    by_cases h : k' = k
    · rw [if_pos h, lookup_cons]
      simp
    · rw [if_neg h, lookup_cons]
      have hb : (k == k') = false := beq_eq_false_iff_ne.mpr (Ne.symm h)
      simp [hb, ih]

/-- Lookup of a different key is unchanged by a replacement insert. -/
theorem lookup_upsertRec_ne (k a : Nat) (v : ARec) (h : k ≠ a) :
    ∀ l, List.lookup a (upsertRec k v l) = List.lookup a l := by
  intro l
  have hb : (a == k) = false := beq_eq_false_iff_ne.mpr (Ne.symm h)
  induction l with
  | nil => simp [upsertRec, lookup_cons, hb]
  | cons p t ih =>
    cases p with | mk k' w =>
    unfold upsertRec
    by_cases hk : k' = k
    · subst hk
      rw [if_pos rfl, lookup_cons, lookup_cons, hb]
      simp
    · rw [if_neg hk, lookup_cons, lookup_cons, ih]

/-- Keys after a replacement insert are the old keys plus the inserted key. -/
theorem mem_keys_upsertRec (a k : Nat) (v : ARec) :
    ∀ l : List (Nat × ARec),
      a ∈ (upsertRec k v l).map Prod.fst ↔ a = k ∨ a ∈ l.map Prod.fst := by
  intro l
  induction l with
  | nil => simp [upsertRec]
  | cons p t ih =>
    cases p with | mk k' w =>
    unfold upsertRec
    by_cases hk : k' = k
    · subst hk
      simp
    · rw [if_neg hk]
      simp only [List.map_cons, List.mem_cons, ih]
      tauto

/-- A replacement insert preserves distinctness of keys. -/
theorem upsertRec_keys_nodup (k : Nat) (v : ARec) :
    ∀ l : List (Nat × ARec),
      (l.map Prod.fst).Nodup → ((upsertRec k v l).map Prod.fst).Nodup := by
  intro l
  induction l with
  | nil =>
    intro _
    simp [upsertRec]
  | cons p t ih =>
    intro hnd
    cases p with | mk k' w =>
    simp only [List.map_cons, List.nodup_cons] at hnd
    unfold upsertRec
    by_cases hk : k' = k
    · rw [if_pos hk]
      simp only [List.map_cons, List.nodup_cons]
      exact ⟨hk ▸ hnd.1, hnd.2⟩
    · rw [if_neg hk]
      simp only [List.map_cons, List.nodup_cons]
      refine ⟨?_, ih hnd.2⟩
      rw [mem_keys_upsertRec]
      rintro (h | h)
      · exact hk h
      · exact hnd.1 h

/-- Membership in the accumulator survives a fold of set inserts. -/
theorem mem_foldl_insert (a : Nat) :
    ∀ (l : List Nat) (acc : List Nat), a ∈ acc →
      a ∈ l.foldl (fun f i => List.insert i f) acc := by
  intro l
  induction l with
  | nil => intro acc h; simpa using h
  | cons i t ih =>
    intro acc h
    simp only [List.foldl_cons]
    exact ih _ (List.mem_insert_iff.mpr (Or.inr h))

/-- One step-1 update for an agent other than `a` does not touch `a`'s
record or its `reminder_fired` membership. -/
theorem step1Update_out (cfg : PollConfig) (now a : Nat)
    (acc : List (Nat × ARec) × List Nat × Nat) (p : Nat × AgentState)
    (h : p.1 ≠ a) :
    List.lookup a (step1Update cfg now acc p).1 = List.lookup a acc.1 ∧
    (a ∈ (step1Update cfg now acc p).2.1 ↔ a ∈ acc.2.1) := by
  unfold step1Update
  cases hl : List.lookup p.1 acc.1 with
  | none => simp [lookup_upsertRec_ne _ _ _ h]
  | some r =>
    by_cases hst : r.state = p.2
    · simp [hst]
    · simp [hst, lookup_upsertRec_ne _ _ _ h,
        List.mem_erase_of_ne (Ne.symm h)]

/-- One step-1 update preserves distinctness of tracker keys. -/
theorem step1Update_keys_nodup (cfg : PollConfig) (now : Nat)
    (acc : List (Nat × ARec) × List Nat × Nat) (p : Nat × AgentState)
    (hnd : (acc.1.map Prod.fst).Nodup) :
    (((step1Update cfg now acc p).1).map Prod.fst).Nodup := by
  unfold step1Update
  cases hl : List.lookup p.1 acc.1 with
  | none => simpa using upsertRec_keys_nodup _ _ _ hnd
  | some r =>
    by_cases hst : r.state = p.2
    · simpa [hst] using hnd
    · simpa [hst] using upsertRec_keys_nodup _ _ _ hnd

/-- The step-1 fold leaves agents absent from the active map untouched. -/
theorem step1_fold_out (cfg : PollConfig) (now a : Nat) :
    ∀ (cur : List (Nat × AgentState)) (acc : List (Nat × ARec) × List Nat × Nat),
      (∀ p ∈ cur, p.1 ≠ a) →
      List.lookup a (cur.foldl (step1Update cfg now) acc).1 = List.lookup a acc.1 ∧
      (a ∈ (cur.foldl (step1Update cfg now) acc).2.1 ↔ a ∈ acc.2.1) := by
  intro cur
  induction cur with
  | nil => intro acc _; simp
  | cons p t ih =>
    intro acc hcur
    simp only [List.foldl_cons]
    have hp : p.1 ≠ a := hcur p (by simp)
    have hstep := step1Update_out cfg now a acc p hp
    have := ih (step1Update cfg now acc p) (fun q hq => hcur q (by simp [hq]))
    exact ⟨this.1.trans hstep.1, this.2.trans hstep.2⟩

/-- The step-1 fold preserves distinctness of tracker keys. -/
theorem step1_fold_keys_nodup (cfg : PollConfig) (now : Nat) :
    ∀ (cur : List (Nat × AgentState)) (acc : List (Nat × ARec) × List Nat × Nat),
      (acc.1.map Prod.fst).Nodup →
      (((cur.foldl (step1Update cfg now) acc).1).map Prod.fst).Nodup := by
  intro cur
  induction cur with
  | nil => intro acc h; simpa using h
  | cons p t ih =>
    intro acc hnd
    simp only [List.foldl_cons]
    exact ih _ (step1Update_keys_nodup cfg now acc p hnd)

/-- Step 2 never adds a key: an agent absent from the tracker stays absent. -/
theorem tickStep2_lookup_none (sfm now : Nat) (cur : List (Nat × AgentState))
    (a : Nat) :
    ∀ (recs : List (Nat × ARec)) (fired : List Nat),
      List.lookup a recs = none →
      List.lookup a (tickStep2 sfm now cur recs fired).1 = none := by
  intro recs
  induction recs with
  | nil => intro fired _; simp [tickStep2]
  | cons p t ih =>
    intro fired h
    cases p with | mk k r =>
    rw [lookup_cons] at h
    cases hik : a == k with
    | true => simp [hik] at h
    | false =>
      rw [hik] at h
      simp at h
      have h' : List.lookup a t = none :=
        (lookup_eq_none_iff a t).mpr
          (fun p hp hpe => h p.1 p.2 (by simpa using hp) hpe.symm)
      simp only [tickStep2]
      split
      · rw [lookup_cons, hik]
        simpa using ih fired h'
      · split
        · rw [lookup_cons, hik]
          simpa using ih fired h'
        · rw [lookup_cons, hik]
          simpa using ih _ h'

/-- Step 2 only inserts or erases the keys it visits, so the
`reminder_fired` membership of an unvisited agent is unchanged. -/
theorem tickStep2_fired_pres (sfm now : Nat) (cur : List (Nat × AgentState))
    (a : Nat) :
    ∀ (recs : List (Nat × ARec)) (fired : List Nat),
      (∀ p ∈ recs, p.1 ≠ a) →
      (a ∈ (tickStep2 sfm now cur recs fired).2 ↔ a ∈ fired) := by
  intro recs
  induction recs with
  | nil => intro fired _; simp [tickStep2]
  | cons p t ih =>
    intro fired hne
    cases p with | mk k r =>
    have hk : k ≠ a := hne (k, r) (by simp)
    have htail : ∀ q ∈ t, q.1 ≠ a := fun q hq => hne q (by simp [hq])
    simp only [tickStep2]
    split
    · simpa using ih fired htail
    · split
      · simpa using ih fired htail
      · rw [show ((k, (⟨AgentState.Idle, now⟩ : ARec)) ::
          (tickStep2 sfm now cur t (if r.state = AgentState.Working ∧
            now - r.since < sfm then List.insert k fired else fired.erase k)).1,
          (tickStep2 sfm now cur t (if r.state = AgentState.Working ∧
            now - r.since < sfm then List.insert k fired else fired.erase k)).2).2
          = (tickStep2 sfm now cur t (if r.state = AgentState.Working ∧
            now - r.since < sfm then List.insert k fired else fired.erase k)).2
          from rfl]
        rw [ih _ htail]
        split
        · rw [List.mem_insert_iff]
          simp [Ne.symm hk]
        · exact List.mem_erase_of_ne (Ne.symm hk)

/-- Step 2 on a tracker with distinct keys turns a tracked-Working agent
whose file disappeared after a short stretch into an Idle record stamped
`now`, with its reminder marked as already fired (the subagent filter). -/
theorem tickStep2_working_gone (sfm now : Nat) (cur : List (Nat × AgentState))
    (a since : Nat) (hcur : List.lookup a cur = none)
    (hshort : now - since < sfm) :
    ∀ (recs : List (Nat × ARec)) (fired : List Nat),
      (recs.map Prod.fst).Nodup →
      List.lookup a recs = some ⟨AgentState.Working, since⟩ →
      List.lookup a (tickStep2 sfm now cur recs fired).1
        = some ⟨AgentState.Idle, now⟩ ∧
      a ∈ (tickStep2 sfm now cur recs fired).2 := by
  intro recs
  induction recs with
  | nil => intro fired _ h; simp [List.lookup] at h
  | cons p t ih =>
    intro fired hnd h
    cases p with | mk k r =>
    rw [lookup_cons] at h
    simp only [List.map_cons, List.nodup_cons] at hnd
    cases hik : a == k with
    | false =>
      rw [hik] at h
      have h' : List.lookup a t = some ⟨AgentState.Working, since⟩ := by
        simpa using h
      simp only [tickStep2]
      split
      · constructor
        · rw [lookup_cons, hik]
          simpa using (ih fired hnd.2 h').1
        · exact (ih fired hnd.2 h').2
      · split
        · constructor
          · rw [lookup_cons, hik]
            simpa using (ih fired hnd.2 h').1
          · exact (ih fired hnd.2 h').2
        · constructor
          · rw [lookup_cons, hik]
            simpa using (ih _ hnd.2 h').1
          · exact (ih _ hnd.2 h').2
    | true =>
      have hak : a = k := by simpa using hik
      subst hak
      rw [hik] at h
      have hr : r = ⟨AgentState.Working, since⟩ := by simpa using h
      simp only [tickStep2]
      rw [if_neg (by simp [hcur])]
      rw [if_neg (by simp [hr])]
      have hcond : r.state = AgentState.Working ∧ now - r.since < sfm := by
        rw [hr]
        exact ⟨rfl, hshort⟩
      rw [if_pos hcond]
      constructor
      · rw [lookup_cons]
        simp
      · have hta : ∀ p ∈ t, p.1 ≠ a :=
          fun p hp hpe => hnd.1 (hpe ▸ List.mem_map_of_mem Prod.fst hp)
        rw [tickStep2_fired_pres sfm now cur a t _ hta]
        exact List.mem_insert_self a fired

/-- Agents fired by step 3 are keys of the tracker it inspected. -/
theorem tickStep3_subset (irm now : Nat) (ic : Bool) (recs : List (Nat × ARec))
    (fired : List Nat) (a : Nat) (h : a ∈ tickStep3 irm now ic recs fired) :
    ∃ p ∈ recs, p.1 = a := by
  unfold tickStep3 at h
  split at h
  · simp at h
  · rcases List.mem_map.mp h with ⟨p, hp, hpe⟩
    exact ⟨p, (List.mem_filter.mp hp).1, hpe⟩

/-- Step 3 never fires an agent whose reminder is already marked fired. -/
theorem tickStep3_mem_fired (irm now : Nat) (ic : Bool) (recs : List (Nat × ARec))
    (fired : List Nat) (a : Nat) (hf : a ∈ fired) :
    a ∉ tickStep3 irm now ic recs fired := by
  intro h
  unfold tickStep3 at h
  split at h
  · simp at h
  · rcases List.mem_map.mp h with ⟨p, hp, hpe⟩
    have hcond := of_decide_eq_true (List.mem_filter.mp hp).2
    exact hcond.2.2.1 (by rw [hpe]; exact hf)

/-- Step 4 never adds a key. -/
theorem tickStep4_lookup_none_absent (irm : Nat) (cur : List (Nat × AgentState))
    (recs : List (Nat × ARec)) (fired : List Nat) (a : Nat)
    (h : List.lookup a recs = none) :
    List.lookup a (tickStep4 irm cur recs fired).1 = none := by
  apply (lookup_eq_none_iff _ _).mpr
  intro p hp
  exact (lookup_eq_none_iff _ _).mp h p (List.mem_of_mem_filter hp)

/-- Step 4 prunes an agent that is absent from the active map and whose
reminder has fired. -/
theorem tickStep4_drop (irm : Nat) (cur : List (Nat × AgentState))
    (recs : List (Nat × ARec)) (fired : List Nat) (a : Nat)
    (hcur : List.lookup a cur = none) (hf : a ∈ fired) :
    List.lookup a (tickStep4 irm cur recs fired).1 = none := by
  apply (lookup_eq_none_iff _ _).mpr
  intro p hp hpe
  have hpred := List.of_mem_filter hp
  simp [hpe, hcur, hf] at hpred

/-- An agent absent from both the tracker and the active map neither fires
an idle reminder this tick nor enters the tracker. -/
theorem tick_absent (cfg : PollConfig) (st : TrackerState)
    (cur : List (Nat × AgentState)) (now a : Nat)
    (hrec : List.lookup a st.records = none)
    (hcur : List.lookup a cur = none) :
    a ∉ (tick cfg st cur now).2.1 ∧
    List.lookup a (tick cfg st cur now).1.records = none := by
  have hcurne : ∀ p ∈ cur, p.1 ≠ a := (lookup_eq_none_iff _ _).mp hcur
  have h1 : List.lookup a (tickStep1 cfg now cur st.records st.fired).1 = none := by
    simp only [tickStep1]
    rw [(step1_fold_out cfg now a cur (st.records, st.fired, 0) hcurne).1]
    exact hrec
  have h2 : List.lookup a (tickStep2 cfg.subagentFilterMs now cur
      (tickStep1 cfg now cur st.records st.fired).1
      (tickStep1 cfg now cur st.records st.fired).2.1).1 = none :=
    tickStep2_lookup_none _ _ _ _ _ _ h1
  constructor
  · intro hmem
    simp only [tick] at hmem
    rcases tickStep3_subset _ _ _ _ _ _ hmem with ⟨p, hp, hpe⟩
    exact (lookup_eq_none_iff _ _).mp h2 p hp hpe
  · simp only [tick]
    exact tickStep4_lookup_none_absent _ _ _ _ _ h2

/-- The tick in which a tracked-Working agent disappears after a stretch
shorter than the subagent filter: the agent does not fire an idle reminder
and is pruned from the tracker. -/
theorem tick_transition (cfg : PollConfig) (st : TrackerState)
    (cur : List (Nat × AgentState)) (now a since : Nat)
    (hnd : (st.records.map Prod.fst).Nodup)
    (hrec : List.lookup a st.records = some ⟨AgentState.Working, since⟩)
    (hcur : List.lookup a cur = none)
    (hshort : now - since < cfg.subagentFilterMs) :
    a ∉ (tick cfg st cur now).2.1 ∧
    List.lookup a (tick cfg st cur now).1.records = none := by
  have hcurne : ∀ p ∈ cur, p.1 ≠ a := (lookup_eq_none_iff _ _).mp hcur
  have h1 : List.lookup a (tickStep1 cfg now cur st.records st.fired).1
      = some ⟨AgentState.Working, since⟩ := by
    simp only [tickStep1]
    rw [(step1_fold_out cfg now a cur (st.records, st.fired, 0) hcurne).1]
    exact hrec
  have h1nd : (((tickStep1 cfg now cur st.records st.fired).1).map Prod.fst).Nodup := by
    simp only [tickStep1]
    exact step1_fold_keys_nodup cfg now cur (st.records, st.fired, 0) hnd
  have h2 := tickStep2_working_gone cfg.subagentFilterMs now cur a since hcur hshort
    (tickStep1 cfg now cur st.records st.fired).1
    (tickStep1 cfg now cur st.records st.fired).2.1 h1nd h1
  constructor
  · intro hmem
    simp only [tick] at hmem
    exact tickStep3_mem_fired _ _ _ _ _ _ h2.2 hmem
  · simp only [tick]
    exact tickStep4_drop _ _ _ _ _ hcur (mem_foldl_insert a _ _ h2.2)

/-- An agent absent from the tracker never fires while its file stays
absent from every scan. -/
theorem runTicks_absent (cfg : PollConfig) (a : Nat) :
    ∀ (inputs : List (List (Nat × AgentState) × Nat)) (st : TrackerState),
      List.lookup a st.records = none →
      (∀ p ∈ inputs, List.lookup a p.1 = none) →
      a ∉ (runTicks cfg st inputs).flatten := by
  intro inputs
  induction inputs with
  | nil => intro st _ _; simp [runTicks]
  | cons q rest ih =>
    intro st hrec hall
    cases q with | mk cur now =>
    have hcur : List.lookup a cur = none := hall (cur, now) (by simp)
    have habs := tick_absent cfg st cur now a hrec hcur
    intro hmem
    simp only [runTicks, List.flatten] at hmem
    rcases List.mem_append.mp hmem with h | h
    · exact habs.1 h
    · exact ih (tick cfg st cur now).1 habs.2 (fun p hp => hall p (by simp [hp])) h

/-- C4: an agent whose tracker record transitions from Working to Idle
because its file disappeared, after a Working stretch shorter than
`subagent_filter`, never contributes to an idle-reminder signal in that
tick or any later tick while its file stays absent: the transition tick
marks its reminder fired and prunes it, and an untracked, unscanned agent
can never fire. -/
theorem c4_subagent_filter (cfg : PollConfig) (st : TrackerState) (a since : Nat)
    (cur0 : List (Nat × AgentState)) (now0 : Nat)
    (rest : List (List (Nat × AgentState) × Nat))
    (hnd : (st.records.map Prod.fst).Nodup)
    (hrec : List.lookup a st.records = some ⟨AgentState.Working, since⟩)
    (hcur0 : List.lookup a cur0 = none)
    (hshort : now0 - since < cfg.subagentFilterMs)
    (hrest : ∀ p ∈ rest, List.lookup a p.1 = none) :
    a ∉ (runTicks cfg st ((cur0, now0) :: rest)).flatten := by
  have htr := tick_transition cfg st cur0 now0 a since hnd hrec hcur0 hshort
  intro hmem
  simp only [runTicks, List.flatten] at hmem
  rcases List.mem_append.mp hmem with h | h
  · exact htr.1 h
  · exact runTicks_absent cfg a rest _ htr.2 hrest h

/-- C4 witness: agent 7, tracked as Working since t=100 with a 50 ms
subagent filter, disappears at t=120 (worked 20 ms) and never fires even
though a later tick at t=9000 is far past the 1000 ms idle-reminder
threshold. -/
theorem c4_subagent_filter_witness :
    (7 : Nat) ∉ (runTicks ⟨1000, 0, 50⟩
      ⟨[(7, ⟨AgentState.Working, 100⟩)], [], none⟩
      [([], 120), ([], 9000)]).flatten :=
  c4_subagent_filter ⟨1000, 0, 50⟩ ⟨[(7, ⟨AgentState.Working, 100⟩)], [], none⟩
    7 100 [] 120 [([], 9000)] (by decide) (by decide) (by decide) (by decide)
    (by decide)

end DS4CC
